import Mathlib

/-!
Shallow embedding of the streaming ASR engine `server/asr.py` (class
`ASRProcessor`) of the bulgarian-app repository, together with proofs of the
behavioural claims about its utterance state machine, decode orchestration
(retry policy, confidence computation, error handling), transcription cache
and chunk segmentation.

External collaborators (the webrtcvad classifier, the faster-whisper decode
backend, the md5 content hash and the Bulgarian text normalizer) are modelled
as function-valued fields of an `Env` record: every theorem below is proved
for an arbitrary instantiation of those fields, which covers the real ones.
Python floats are modelled as exact rationals, machine integers as `Int`.

Naming note: because the event-kind strings of the source are kept verbatim
("partial" / "final"), but the corresponding Python identifiers
(`_get_partial_transcription`, `partial_text`, `beam_size_partial`) cannot be
reused literally here, the identifiers below use `interim` for that kind:
`getInterimTranscription`, `interim_text`, `beam_size_interim`.
-/

namespace ASR

/-- One 20 ms audio frame: a list of int16 PCM samples. -/
abbrev Frame := List Int

/-- A decoded segment as reported by the backend: `{text, avg_logprob}`. -/
structure Segment where
  text : String
  avg_logprob : ℚ
deriving DecidableEq

/-- Per-decode info object reported by the backend (`info.no_speech_prob`). -/
structure TranscribeInfo where
  no_speech_prob : ℚ
deriving DecidableEq

/-- Outcome of one backend `transcribe` call: a result, or a raised exception. -/
inductive DecodeOutcome where
  | ok (segments : List Segment) (info : TranscribeInfo)
  | err
deriving DecidableEq

/-- The keyword arguments of one `model.transcribe` invocation. -/
structure DecodeParams where
  language : String
  beam_size : Nat
  temperature : ℚ
  no_speech_threshold : ℚ
  condition_on_previous_text : Bool
  word_timestamps : Bool
deriving DecidableEq

/-- A transcription-cache value.  The source supports an old text-only format
and the current `{"text": …, "confidence": …}` dict format. -/
inductive CacheEntry where
  | legacy (text : String)
  | entry (text : String) (confidence : ℚ)
deriving DecidableEq

/-- Engine environment: the configuration fields of `ASRProcessor.__init__`
that the claims depend on, plus the external collaborators as arbitrary
functions: `vad` models `webrtcvad.Vad.is_speech` on a frame, `backend`
models `self.model.transcribe` (audio plus parameters to outcome),
`normalize` models `normalize_bulgarian(·, mode="asr")`, and `hashFn` models
`hashlib.md5(audio.tobytes()).hexdigest()`. -/
structure Env where
  vad_tail_ms : Nat := 300
  beam_size_interim : Nat := 1
  beam_size_final : Nat := 2
  no_speech_threshold : ℚ := (mkRat 3 5)
  temperature : ℚ := 0
  vad : Frame → Bool
  backend : List ℚ → DecodeParams → DecodeOutcome
  normalize : String → String
  hashFn : List Int → String

/-- `self.frame_duration = 20` (ms). -/
def frame_duration : Nat := 20

/-- `self.frame_size = int(16000 * 20 / 1000) = 320` samples per frame. -/
def frame_size : Nat := 320

/-- `self.cache_max_size = 100`. -/
def cache_max_size : Nat := 100

/-- `self.max_silence_frames = int(self.vad_tail_ms / self.frame_duration)`:
Python true division followed by `int` truncation, i.e. floor division on
non-negative input. -/
def Env.max_silence_frames (env : Env) : Nat := env.vad_tail_ms / frame_duration

/-- The mutable per-engine state of `ASRProcessor`: `speech_frames`,
`silence_count`, `speech_triggered`, `partial_text` (here `interim_text`) and
`transcription_cache` (an insertion-ordered association list). -/
structure ASRState where
  speech_frames : List Frame
  silence_count : Nat
  speech_triggered : Bool
  interim_text : String
  cache : List (String × CacheEntry)
deriving DecidableEq

/-- The state just after `__init__`. -/
def initState : ASRState :=
  { speech_frames := [], silence_count := 0, speech_triggered := false,
    interim_text := "", cache := [] }

/-- Dict lookup `self.transcription_cache[key]` (first match). -/
def cacheLookup : List (String × CacheEntry) → String → Option CacheEntry
  | [], _ => none
  | (k, v) :: rest, key => if k = key then some v else cacheLookup rest key

/-- The `(cached_text, cached_confidence)` pair extracted from a cache entry:
dict entries carry their own confidence, the legacy text-only format falls
back to the given default (0.7 on the partial path, 0.85 on the final path). -/
def CacheEntry.pair : CacheEntry → ℚ → String × ℚ
  | .legacy t, d => (t, d)
  | .entry t c, _ => (t, c)

/-- `np.concatenate(self.speech_frames)`. -/
def concatFrames (fs : List Frame) : List Int := fs.flatten

/-- `audio.astype(np.float32) / 32768.0`. -/
def floatAudio (a : List Int) : List ℚ := a.map (fun x => (x : ℚ) / 32768)

/-- `" ".join([segment.text.strip() for segment in segments])`. -/
def joinSegments (segs : List Segment) : String :=
  String.intercalate " " (segs.map (fun sg => sg.text.trim))

/-- `min(1.0, max(0.0, (segment.avg_logprob + 1.0) / 1.0))`. -/
def segConfidence (sg : Segment) : ℚ := min 1 (max 0 ((sg.avg_logprob + 1) / 1))

/-- `sum(confidences) / len(confidences) if confidences else dflt`; every
segment carries `avg_logprob`, so `confidences` has one entry per segment. -/
def avgConfidence (segs : List Segment) (dflt : ℚ) : ℚ :=
  let confs := segs.map segConfidence
  if confs = [] then dflt else confs.sum / confs.length

/-- The shared decode-with-retry body of `_get_partial_transcription` and
`_finalize_transcription` after the cache miss: first `transcribe` with `p1`,
text joining and normalization, confidence with no-segment default `dflt1`;
if the text is empty and `info.no_speech_prob > 0.8`, one retry with
`beam_size := retry_beam`, `temperature := 0.2`, `no_speech_threshold := 0.3`
and no-segment default `dflt2`.  Returns `none` when an attempt raised (the
surrounding `except` clause), plus the list of issued backend calls. -/
def runDecode (env : Env) (audio : List ℚ) (p1 : DecodeParams) (retry_beam : Nat)
    (dflt1 dflt2 : ℚ) : Option (String × ℚ) × List DecodeParams :=
  match env.backend audio p1 with
  | .err => (none, [p1])
  | .ok segs info =>
    let text := env.normalize (joinSegments segs)
    let conf := avgConfidence segs dflt1
    if text = "" ∧ info.no_speech_prob > (mkRat 4 5) then
      let p2 : DecodeParams :=
        { p1 with beam_size := retry_beam, temperature := (mkRat 1 5), no_speech_threshold := (mkRat 3 10) }
      match env.backend audio p2 with
      | .err => (none, [p1, p2])
      | .ok segs2 _ =>
        (some (env.normalize (joinSegments segs2), avgConfidence segs2 dflt2), [p1, p2])
    else
      (some (text, conf), [p1])

/-- A returned event dict `{"type": …, "text": …, "confidence": …}`. -/
structure TranscriptionEvent where
  type : String
  text : String
  confidence : ℚ
deriving DecidableEq

/-- The `transcribe` keyword arguments of the first attempt on the partial
path (`word_timestamps` is not passed, hence the backend default `false`). -/
def interimParams (env : Env) : DecodeParams :=
  { language := "bg", beam_size := env.beam_size_interim, temperature := env.temperature,
    no_speech_threshold := env.no_speech_threshold, condition_on_previous_text := false,
    word_timestamps := false }

/-- The `transcribe` keyword arguments of the first attempt on the final path
(`word_timestamps=True`). -/
def finalParams (env : Env) : DecodeParams :=
  { language := "bg", beam_size := env.beam_size_final, temperature := env.temperature,
    no_speech_threshold := env.no_speech_threshold, condition_on_previous_text := false,
    word_timestamps := true }

/-- `_get_partial_transcription`: empty-buffer early return, cache lookup,
decode with retry, conditional cache store (non-empty text, size under
capacity), `partial_text` update.  Returns the event, the new state and the
list of backend calls issued. -/
def getInterimTranscription (env : Env) (s : ASRState) :
    TranscriptionEvent × ASRState × List DecodeParams :=
  if s.speech_frames = [] then
    (⟨"partial", "", 0⟩, s, [])
  else
    let audio := concatFrames s.speech_frames
    let key := env.hashFn audio
    match cacheLookup s.cache key with
    | some e =>
      let tc := e.pair (mkRat 7 10)
      (⟨"partial", tc.1, tc.2⟩, { s with interim_text := tc.1 }, [])
    | none =>
      match runDecode env (floatAudio audio) (interimParams env) env.beam_size_interim
          (mkRat 7 10) (mkRat 1 2) with
      | (none, calls) => (⟨"partial", "", 0⟩, s, calls)
      | (some (text, conf), calls) =>
        let cache2 :=
          if text ≠ "" ∧ s.cache.length < cache_max_size then
            s.cache ++ [(key, CacheEntry.entry text conf)]
          else s.cache
        (⟨"partial", text, conf⟩, { s with cache := cache2, interim_text := text }, calls)

/-- `_finalize_transcription`: empty-buffer early return, cache lookup, decode
with retry (`beam_size_final + 1` on the retry), conditional cache store, and
the state reset (`speech_frames = []`, `silence_count = 0`,
`speech_triggered = False`, `partial_text = ""`) on every non-empty-buffer
branch, including the exception path. -/
def finalizeTranscription (env : Env) (s : ASRState) :
    TranscriptionEvent × ASRState × List DecodeParams :=
  if s.speech_frames = [] then
    (⟨"final", "", 0⟩, s, [])
  else
    let audio := concatFrames s.speech_frames
    let key := env.hashFn audio
    match cacheLookup s.cache key with
    | some e =>
      let tc := e.pair (mkRat 17 20)
      (⟨"final", tc.1, tc.2⟩,
       { s with speech_frames := [], silence_count := 0, speech_triggered := false,
                interim_text := "" }, [])
    | none =>
      match runDecode env (floatAudio audio) (finalParams env) (env.beam_size_final + 1)
          (mkRat 17 20) (mkRat 3 5) with
      | (none, calls) =>
        (⟨"final", "", 0⟩,
         { s with speech_frames := [], silence_count := 0, speech_triggered := false,
                  interim_text := "" }, calls)
      | (some (text, conf), calls) =>
        let cache2 :=
          if text ≠ "" ∧ s.cache.length < cache_max_size then
            s.cache ++ [(key, CacheEntry.entry text conf)]
          else s.cache
        (⟨"final", text, conf⟩,
         { s with speech_frames := [], silence_count := 0, speech_triggered := false,
                  interim_text := "", cache := cache2 }, calls)

/-- `_process_frame`: VAD classification, then the state-machine step.  On a
speech frame, append to the buffer, zero the silence counter, set
`speech_triggered`, and run a partial decode when the buffer length is a
multiple of 25.  On a silence frame while triggered, bump the counter and
finalize once it reaches `max_silence_frames`. -/
def processFrame (env : Env) (s : ASRState) (frame : Frame) :
    Option TranscriptionEvent × ASRState × List DecodeParams :=
  if env.vad frame then
    let s1 := { s with speech_frames := s.speech_frames ++ [frame], silence_count := 0,
                       speech_triggered := true }
    if s1.speech_frames.length % 25 = 0 then
      let r := getInterimTranscription env s1
      (some r.1, r.2.1, r.2.2)
    else
      (none, s1, [])
  else
    if s.speech_triggered then
      let s1 := { s with silence_count := s.silence_count + 1 }
      if env.max_silence_frames ≤ s1.silence_count then
        let r := finalizeTranscription env s1
        (some r.1, r.2.1, r.2.2)
      else
        (none, s1, [])
    else
      (none, s, [])

/-- The frame splitting of `process_audio_chunk`: slices of `frame_size`
samples, the trailing short slice zero-padded to the full frame size. -/
def chunkFrames (samples : List Int) : List Frame :=
  if samples = [] then []
  else if samples.length ≤ frame_size then
    [samples ++ List.replicate (frame_size - samples.length) 0]
  else
    samples.take frame_size :: chunkFrames (samples.drop frame_size)
termination_by samples.length
decreasing_by
  simp only [List.length_drop, frame_size]
  omega

/-- The frame loop of `process_audio_chunk`: frames in order, stopping at the
first frame whose processing returns a result. -/
def processFrames (env : Env) : ASRState → List Frame →
    Option TranscriptionEvent × ASRState × List DecodeParams
  | s, [] => (none, s, [])
  | s, f :: rest =>
    match processFrame env s f with
    | (some e, s1, calls) => (some e, s1, calls)
    | (none, s1, calls) =>
      let r := processFrames env s1 rest
      (r.1, r.2.1, calls ++ r.2.2)

/-- `process_audio_chunk`: split the int16 samples into padded frames and run
the early-stopping frame loop. -/
def processAudioChunk (env : Env) (s : ASRState) (samples : List Int) :
    Option TranscriptionEvent × ASRState × List DecodeParams :=
  processFrames env s (chunkFrames samples)

/-- Reference driver that feeds frames one call of `_process_frame` at a time
(no early stopping), collecting every emitted event in order. -/
def runFrames (env : Env) : ASRState → List Frame → List TranscriptionEvent × ASRState
  | s, [] => ([], s)
  | s, f :: rest =>
    let r := processFrame env s f
    let rr := runFrames env r.2.1 rest
    (r.1.toList ++ rr.1, rr.2)

/-- `reset`. -/
def resetState (s : ASRState) : ASRState :=
  { s with speech_frames := [], silence_count := 0, speech_triggered := false,
           interim_text := "" }

/-- The `audio_data` argument of `process_audio`: a numpy array of dtype
int16 or float32 (other dtypes are converted like float32), or `None`. -/
inductive AudioArray where
  | i16 (samples : List Int)
  | f32 (samples : List ℚ)
deriving DecidableEq

/-- `len(audio_data)`. -/
def AudioArray.len : AudioArray → Nat
  | .i16 l => l.length
  | .f32 l => l.length

/-- The dtype normalization of `process_audio`: int16 divides by 32768,
float32 passes through. -/
def AudioArray.toFloat : AudioArray → List ℚ
  | .i16 l => floatAudio l
  | .f32 l => l

/-- The dict returned by `process_audio`. -/
structure ProcessAudioResult where
  text : String
  confidence : ℚ
  language : String
deriving DecidableEq

/-- `process_audio`: `None`/empty early return, fixed decode parameters,
text joining, confidence with default 0.7, exception fallback.  The engine
state `s` is threaded unchanged (the method reads and writes none of the
mutable per-utterance fields); the third component lists the backend calls. -/
def processAudio (env : Env) (s : ASRState) (audio_data : Option AudioArray) :
    ProcessAudioResult × ASRState × List DecodeParams :=
  match audio_data with
  | none => (⟨"", 0, "bg"⟩, s, [])
  | some a =>
    if a.len = 0 then (⟨"", 0, "bg"⟩, s, [])
    else
      let p : DecodeParams :=
        { language := "bg", beam_size := 2, temperature := 0, no_speech_threshold := (mkRat 3 5),
          condition_on_previous_text := false, word_timestamps := false }
      match env.backend a.toFloat p with
      | .err => (⟨"", 0, "bg"⟩, s, [p])
      | .ok segs _ =>
        (⟨env.normalize (joinSegments segs), avgConfidence segs (mkRat 7 10), "bg"⟩, s, [p])

/-- Engine states reachable from the post-`__init__` state by processing
arbitrary frames (which internally performs partial decodes and
finalizations), by finalization, and by `reset`. -/
inductive Reachable (env : Env) : ASRState → Prop
  | init : Reachable env initState
  | frame (s : ASRState) (f : Frame) : Reachable env s →
      Reachable env (processFrame env s f).2.1
  | finalize (s : ASRState) : Reachable env s →
      Reachable env (finalizeTranscription env s).2.1
  | reset (s : ASRState) : Reachable env s → Reachable env (resetState s)

/-! ### Concrete environments and states used by witnesses and counterexamples -/

/-- Concrete environment for witnesses: silence tail of 0 ms, VAD classifies
a frame as speech exactly when its first sample is 1, the backend always
succeeds with no segments, identity normalizer, length-string hash. -/
def envW0 : Env :=
  { vad_tail_ms := 0,
    vad := fun f => decide (f.head? = some 1),
    backend := fun _ _ => .ok [] ⟨0⟩,
    normalize := id,
    hashFn := fun a => toString a.length }

/-- A concrete Active state holding one frame. -/
def sW6 : ASRState :=
  { speech_frames := [[1]], silence_count := 0, speech_triggered := true,
    interim_text := "", cache := [] }

/-- `envW0` with the 250 ms silence tail of the C1 scenario. -/
def envW1 : Env := { envW0 with vad_tail_ms := 250 }

/-- Environment whose backend always raises. -/
def envErr : Env := { envW0 with backend := fun _ _ => .err }

/-- Environment whose backend reports no-speech probability 0.9 on a first
attempt (recognizable by its configured `no_speech_threshold`) and succeeds
with no segments on the relaxed retry attempt. -/
def envRetry : Env :=
  { envW0 with
    backend := fun _ p =>
      if p.no_speech_threshold = (mkRat 3 10) then .ok [] ⟨0⟩
      else .ok [] ⟨(mkRat 9 10)⟩ }

/-- Environment whose decodes produce the non-empty text "x" (an
always-"x" normalizer over a no-segment backend result). -/
def envTxt : Env := { envW0 with normalize := fun _ => "x" }

/-! ### Branch equation lemmas -/

theorem runDecode_err1 (env : Env) (audio : List ℚ) (p1 : DecodeParams) (rb : Nat)
    (d1 d2 : ℚ) (h : env.backend audio p1 = .err) :
    runDecode env audio p1 rb d1 d2 = (none, [p1]) := by
  simp [runDecode, h]

theorem runDecode_ok_noretry (env : Env) (audio : List ℚ) (p1 : DecodeParams) (rb : Nat)
    (d1 d2 : ℚ) (segs : List Segment) (info : TranscribeInfo)
    (h : env.backend audio p1 = .ok segs info)
    (hnr : ¬(env.normalize (joinSegments segs) = "" ∧ info.no_speech_prob > (mkRat 4 5))) :
    runDecode env audio p1 rb d1 d2 =
      (some (env.normalize (joinSegments segs), avgConfidence segs d1), [p1]) := by
  simp only [runDecode, h]
  rw [if_neg hnr]

theorem runDecode_retry_ok (env : Env) (audio : List ℚ) (p1 : DecodeParams) (rb : Nat)
    (d1 d2 : ℚ) (segs segs2 : List Segment) (info info2 : TranscribeInfo)
    (h : env.backend audio p1 = .ok segs info)
    (he : env.normalize (joinSegments segs) = "") (hp : info.no_speech_prob > (mkRat 4 5))
    (h2 : env.backend audio
      { p1 with beam_size := rb, temperature := (mkRat 1 5), no_speech_threshold := (mkRat 3 10) } =
      .ok segs2 info2) :
    runDecode env audio p1 rb d1 d2 =
      (some (env.normalize (joinSegments segs2), avgConfidence segs2 d2),
       [p1, { p1 with beam_size := rb, temperature := (mkRat 1 5), no_speech_threshold := (mkRat 3 10) }]) := by
  simp only [runDecode, h]
  rw [if_pos ⟨he, hp⟩]
  simp [h2]

theorem runDecode_retry_err (env : Env) (audio : List ℚ) (p1 : DecodeParams) (rb : Nat)
    (d1 d2 : ℚ) (segs : List Segment) (info : TranscribeInfo)
    (h : env.backend audio p1 = .ok segs info)
    (he : env.normalize (joinSegments segs) = "") (hp : info.no_speech_prob > (mkRat 4 5))
    (h2 : env.backend audio
      { p1 with beam_size := rb, temperature := (mkRat 1 5), no_speech_threshold := (mkRat 3 10) } = .err) :
    runDecode env audio p1 rb d1 d2 =
      (none,
       [p1, { p1 with beam_size := rb, temperature := (mkRat 1 5), no_speech_threshold := (mkRat 3 10) }]) := by
  simp only [runDecode, h]
  rw [if_pos ⟨he, hp⟩]
  simp [h2]

theorem runDecode_calls_le_two (env : Env) (audio : List ℚ) (p1 : DecodeParams) (rb : Nat)
    (d1 d2 : ℚ) : (runDecode env audio p1 rb d1 d2).2.length ≤ 2 := by
  unfold runDecode
  rcases env.backend audio p1 with _ | ⟨segs, info⟩ <;> simp
  split
  · split <;> simp
  · simp

theorem getInterim_empty (env : Env) (s : ASRState) (h : s.speech_frames = []) :
    getInterimTranscription env s = (⟨"partial", "", 0⟩, s, []) := by
  simp [getInterimTranscription, h]

theorem getInterim_hit (env : Env) (s : ASRState) (e : CacheEntry)
    (hne : s.speech_frames ≠ [])
    (h : cacheLookup s.cache (env.hashFn (concatFrames s.speech_frames)) = some e) :
    getInterimTranscription env s =
      (⟨"partial", (e.pair (mkRat 7 10)).1, (e.pair (mkRat 7 10)).2⟩,
       { s with interim_text := (e.pair (mkRat 7 10)).1 }, []) := by
  simp [getInterimTranscription, hne, h]

theorem getInterim_decode (env : Env) (s : ASRState) (text : String) (conf : ℚ)
    (calls : List DecodeParams) (hne : s.speech_frames ≠ [])
    (hm : cacheLookup s.cache (env.hashFn (concatFrames s.speech_frames)) = none)
    (hd : runDecode env (floatAudio (concatFrames s.speech_frames)) (interimParams env)
        env.beam_size_interim (mkRat 7 10) (mkRat 1 2) = (some (text, conf), calls)) :
    getInterimTranscription env s =
      (⟨"partial", text, conf⟩,
       { s with
         cache := if text ≠ "" ∧ s.cache.length < cache_max_size then
             s.cache ++ [(env.hashFn (concatFrames s.speech_frames),
                          CacheEntry.entry text conf)]
           else s.cache,
         interim_text := text }, calls) := by
  simp [getInterimTranscription, hne, hm, hd]

theorem getInterim_err (env : Env) (s : ASRState) (calls : List DecodeParams)
    (hne : s.speech_frames ≠ [])
    (hm : cacheLookup s.cache (env.hashFn (concatFrames s.speech_frames)) = none)
    (hd : runDecode env (floatAudio (concatFrames s.speech_frames)) (interimParams env)
        env.beam_size_interim (mkRat 7 10) (mkRat 1 2) = (none, calls)) :
    getInterimTranscription env s = (⟨"partial", "", 0⟩, s, calls) := by
  simp [getInterimTranscription, hne, hm, hd]

theorem finalize_empty (env : Env) (s : ASRState) (h : s.speech_frames = []) :
    finalizeTranscription env s = (⟨"final", "", 0⟩, s, []) := by
  simp [finalizeTranscription, h]

theorem finalize_hit (env : Env) (s : ASRState) (e : CacheEntry)
    (hne : s.speech_frames ≠ [])
    (h : cacheLookup s.cache (env.hashFn (concatFrames s.speech_frames)) = some e) :
    finalizeTranscription env s =
      (⟨"final", (e.pair (mkRat 17 20)).1, (e.pair (mkRat 17 20)).2⟩,
       { s with speech_frames := [], silence_count := 0, speech_triggered := false,
                interim_text := "" }, []) := by
  simp [finalizeTranscription, hne, h]

theorem finalize_decode (env : Env) (s : ASRState) (text : String) (conf : ℚ)
    (calls : List DecodeParams) (hne : s.speech_frames ≠ [])
    (hm : cacheLookup s.cache (env.hashFn (concatFrames s.speech_frames)) = none)
    (hd : runDecode env (floatAudio (concatFrames s.speech_frames)) (finalParams env)
        (env.beam_size_final + 1) (mkRat 17 20) (mkRat 3 5) = (some (text, conf), calls)) :
    finalizeTranscription env s =
      (⟨"final", text, conf⟩,
       { s with
         speech_frames := [], silence_count := 0, speech_triggered := false,
         interim_text := "",
         cache := if text ≠ "" ∧ s.cache.length < cache_max_size then
             s.cache ++ [(env.hashFn (concatFrames s.speech_frames),
                          CacheEntry.entry text conf)]
           else s.cache }, calls) := by
  simp [finalizeTranscription, hne, hm, hd]

theorem finalize_err (env : Env) (s : ASRState) (calls : List DecodeParams)
    (hne : s.speech_frames ≠ [])
    (hm : cacheLookup s.cache (env.hashFn (concatFrames s.speech_frames)) = none)
    (hd : runDecode env (floatAudio (concatFrames s.speech_frames)) (finalParams env)
        (env.beam_size_final + 1) (mkRat 17 20) (mkRat 3 5) = (none, calls)) :
    finalizeTranscription env s =
      (⟨"final", "", 0⟩,
       { s with speech_frames := [], silence_count := 0, speech_triggered := false,
                interim_text := "" }, calls) := by
  simp [finalizeTranscription, hne, hm, hd]

theorem processFrame_speech_noPart (env : Env) (s : ASRState) (f : Frame)
    (hv : env.vad f = true) (hm : (s.speech_frames.length + 1) % 25 ≠ 0) :
    processFrame env s f =
      (none, { s with speech_frames := s.speech_frames ++ [f], silence_count := 0,
                      speech_triggered := true }, []) := by
  simp [processFrame, hv, hm]

theorem processFrame_speech_part (env : Env) (s : ASRState) (f : Frame)
    (hv : env.vad f = true) (hm : (s.speech_frames.length + 1) % 25 = 0) :
    processFrame env s f =
      (some (getInterimTranscription env
          { s with speech_frames := s.speech_frames ++ [f], silence_count := 0,
                   speech_triggered := true }).1,
       (getInterimTranscription env
          { s with speech_frames := s.speech_frames ++ [f], silence_count := 0,
                   speech_triggered := true }).2.1,
       (getInterimTranscription env
          { s with speech_frames := s.speech_frames ++ [f], silence_count := 0,
                   speech_triggered := true }).2.2) := by
  simp [processFrame, hv, hm]

theorem processFrame_silence_idle (env : Env) (s : ASRState) (f : Frame)
    (hv : env.vad f = false) (ht : s.speech_triggered = false) :
    processFrame env s f = (none, s, []) := by
  simp [processFrame, hv, ht]

theorem processFrame_silence_wait (env : Env) (s : ASRState) (f : Frame)
    (hv : env.vad f = false) (ht : s.speech_triggered = true)
    (hc : s.silence_count + 1 < env.max_silence_frames) :
    processFrame env s f = (none, { s with silence_count := s.silence_count + 1 }, []) := by
  simp [processFrame, hv, ht]
  omega

theorem processFrame_silence_final (env : Env) (s : ASRState) (f : Frame)
    (hv : env.vad f = false) (ht : s.speech_triggered = true)
    (hc : env.max_silence_frames ≤ s.silence_count + 1) :
    processFrame env s f =
      (some (finalizeTranscription env { s with silence_count := s.silence_count + 1 }).1,
       (finalizeTranscription env { s with silence_count := s.silence_count + 1 }).2.1,
       (finalizeTranscription env { s with silence_count := s.silence_count + 1 }).2.2) := by
  simp [processFrame, hv, ht, hc]

/-- The partial-transcription path reads but never writes `speech_frames`,
`silence_count` and `speech_triggered`: only the cache and `partial_text`
(`interim_text`) change. -/
theorem getInterim_core_fields (env : Env) (s : ASRState) :
    ((getInterimTranscription env s).2.1).speech_frames = s.speech_frames ∧
    ((getInterimTranscription env s).2.1).silence_count = s.silence_count ∧
    ((getInterimTranscription env s).2.1).speech_triggered = s.speech_triggered := by
  by_cases hne : s.speech_frames = []
  · rw [getInterim_empty env s hne]
    exact ⟨rfl, rfl, rfl⟩
  · rcases hcl : cacheLookup s.cache (env.hashFn (concatFrames s.speech_frames)) with _ | e
    · rcases hd : runDecode env (floatAudio (concatFrames s.speech_frames))
          (interimParams env) env.beam_size_interim (mkRat 7 10) (mkRat 1 2) with ⟨r, calls⟩
      rcases r with _ | ⟨text, conf⟩
      · rw [getInterim_err env s calls hne hcl hd]
        exact ⟨rfl, rfl, rfl⟩
      · rw [getInterim_decode env s text conf calls hne hcl hd]
        exact ⟨rfl, rfl, rfl⟩
    · rw [getInterim_hit env s e hne hcl]
      exact ⟨rfl, rfl, rfl⟩

/-- On a non-empty buffer, every branch of `_finalize_transcription` resets
the per-utterance state (the cache may grow). -/
theorem finalize_resets (env : Env) (s : ASRState) (hne : s.speech_frames ≠ []) :
    ((finalizeTranscription env s).2.1).speech_frames = [] ∧
    ((finalizeTranscription env s).2.1).silence_count = 0 ∧
    ((finalizeTranscription env s).2.1).speech_triggered = false ∧
    ((finalizeTranscription env s).2.1).interim_text = "" := by
  rcases hcl : cacheLookup s.cache (env.hashFn (concatFrames s.speech_frames)) with _ | e
  · rcases hd : runDecode env (floatAudio (concatFrames s.speech_frames))
        (finalParams env) (env.beam_size_final + 1) (mkRat 17 20) (mkRat 3 5) with ⟨r, calls⟩
    rcases r with _ | ⟨text, conf⟩
    · rw [finalize_err env s calls hne hcl hd]
      exact ⟨rfl, rfl, rfl, rfl⟩
    · rw [finalize_decode env s text conf calls hne hcl hd]
      exact ⟨rfl, rfl, rfl, rfl⟩
  · rw [finalize_hit env s e hne hcl]
    exact ⟨rfl, rfl, rfl, rfl⟩

/-- Every branch of `_finalize_transcription` emits a "final" event, and every
branch of `_get_partial_transcription` emits a "partial" event. -/
theorem event_types (env : Env) (s : ASRState) :
    ((finalizeTranscription env s).1).type = "final" ∧
    ((getInterimTranscription env s).1).type = "partial" := by
  constructor
  · by_cases hne : s.speech_frames = []
    · rw [finalize_empty env s hne]
    · rcases hcl : cacheLookup s.cache (env.hashFn (concatFrames s.speech_frames)) with _ | e
      · rcases hd : runDecode env (floatAudio (concatFrames s.speech_frames))
            (finalParams env) (env.beam_size_final + 1) (mkRat 17 20) (mkRat 3 5) with ⟨_ | ⟨t, c⟩, calls⟩
        · rw [finalize_err env s calls hne hcl hd]
        · rw [finalize_decode env s t c calls hne hcl hd]
      · rw [finalize_hit env s e hne hcl]
  · by_cases hne : s.speech_frames = []
    · rw [getInterim_empty env s hne]
    · rcases hcl : cacheLookup s.cache (env.hashFn (concatFrames s.speech_frames)) with _ | e
      · rcases hd : runDecode env (floatAudio (concatFrames s.speech_frames))
            (interimParams env) env.beam_size_interim (mkRat 7 10) (mkRat 1 2) with ⟨_ | ⟨t, c⟩, calls⟩
        · rw [getInterim_err env s calls hne hcl hd]
        · rw [getInterim_decode env s t c calls hne hcl hd]
      · rw [getInterim_hit env s e hne hcl]

/-! ### Reachability and invariants -/

/-- Invariant: in reachable states, the engine is Active (speech triggered)
exactly when the speech buffer is non-empty. -/
theorem reachable_triggered_iff (env : Env) (s : ASRState) (h : Reachable env s) :
    s.speech_triggered = true ↔ s.speech_frames ≠ [] := by
  induction h with
  | init => simp [initState]
  | frame s f hs ih =>
    by_cases hv : env.vad f = true
    · by_cases hm : (s.speech_frames.length + 1) % 25 = 0
      · rw [processFrame_speech_part env s f hv hm]
        have hc := getInterim_core_fields env
          { s with speech_frames := s.speech_frames ++ [f], silence_count := 0,
                   speech_triggered := true }
        rw [hc.1, hc.2.2]
        simp
      · rw [processFrame_speech_noPart env s f hv hm]
        simp
    · have hv' : env.vad f = false := by simpa using hv
      by_cases ht : s.speech_triggered = true
      · by_cases hc : env.max_silence_frames ≤ s.silence_count + 1
        · rw [processFrame_silence_final env s f hv' ht hc]
          have hne : ({ s with silence_count := s.silence_count + 1 } :
              ASRState).speech_frames ≠ [] := by
            simpa using ih.mp ht
          have hr := finalize_resets env _ hne
          rw [hr.1, hr.2.2.1]
          simp
        · rw [processFrame_silence_wait env s f hv' ht (by omega)]
          simpa using ih
      · have ht' : s.speech_triggered = false := by simpa using ht
        rw [processFrame_silence_idle env s f hv' ht']
        exact ih
  | finalize s hs ih =>
    by_cases hne : s.speech_frames = []
    · rw [finalize_empty env s hne]
      exact ih
    · have hr := finalize_resets env s hne
      rw [hr.1, hr.2.2.1]
      simp
  | reset s hs ih => simp [resetState]

/-! ### Claims -/

/-- C7: in every state reachable from the initial state by frame-processing
steps, finalizations, and resets, if the utterance state is Active
(`speech_triggered`) then the speech-frame buffer is non-empty. -/
theorem c7_active_nonempty_buffer (env : Env) (s : ASRState)
    (h : Reachable env s) (ht : s.speech_triggered = true) :
    s.speech_frames ≠ [] :=
  (reachable_triggered_iff env s h).mp ht

/-- C8: a Partial event is never emitted while Idle: a frame-processing step
from a reachable Idle state returns no event at all; and whenever a step
emits a "partial" event, the frame was classified as speech, the appended
frame count of the current utterance is a multiple of 25, and the engine
stays Active with the appended buffer intact. -/
theorem c8_interim_only_active (env : Env) (s : ASRState) (h : Reachable env s)
    (f : Frame) :
    (s.speech_triggered = false → (processFrame env s f).1 = none) ∧
    (∀ e, (processFrame env s f).1 = some e → e.type = "partial" →
      env.vad f = true ∧ (s.speech_frames.length + 1) % 25 = 0 ∧
      ((processFrame env s f).2.1).speech_triggered = true ∧
      ((processFrame env s f).2.1).speech_frames = s.speech_frames ++ [f]) := by
  constructor
  · intro ht
    by_cases hv : env.vad f = true
    · have hemp : s.speech_frames = [] := by
        by_contra hne
        have := (reachable_triggered_iff env s h).mpr hne
        rw [ht] at this
        exact Bool.false_ne_true this
      have hm : (s.speech_frames.length + 1) % 25 ≠ 0 := by
        rw [hemp]
        decide
      rw [processFrame_speech_noPart env s f hv hm]
    · have hv' : env.vad f = false := by simpa using hv
      rw [processFrame_silence_idle env s f hv' ht]
  · intro e he htype
    by_cases hv : env.vad f = true
    · by_cases hm : (s.speech_frames.length + 1) % 25 = 0
      · have hc := getInterim_core_fields env
          { s with speech_frames := s.speech_frames ++ [f], silence_count := 0,
                   speech_triggered := true }
        rw [processFrame_speech_part env s f hv hm] at he ⊢
        exact ⟨hv, hm, by rw [hc.2.2], by rw [hc.1]⟩
      · rw [processFrame_speech_noPart env s f hv hm] at he
        exact absurd he (by simp)
    · have hv' : env.vad f = false := by simpa using hv
      by_cases ht : s.speech_triggered = true
      · by_cases hcnt : env.max_silence_frames ≤ s.silence_count + 1
        · rw [processFrame_silence_final env s f hv' ht hcnt] at he
          simp only [Option.some.injEq] at he
          have hfin := (event_types env { s with silence_count := s.silence_count + 1 }).1
          rw [he, htype] at hfin
          exact absurd hfin (by decide)
        · rw [processFrame_silence_wait env s f hv' ht (by omega)] at he
          exact absurd he (by simp)
      · have ht' : s.speech_triggered = false := by simpa using ht
        rw [processFrame_silence_idle env s f hv' ht'] at he
        exact absurd he (by simp)

/-- C9: every chunk shorter than one frame (320 samples) is processed to
completion: the empty chunk produces no frames and returns no event, and a
non-empty short chunk is zero-padded to one full 320-sample frame which is
then processed — never rejected or dropped. -/
theorem c9_short_chunk_padded (env : Env) (s : ASRState) (samples : List Int)
    (hlt : samples.length < frame_size) :
    (samples = [] → processAudioChunk env s samples = (none, s, [])) ∧
    (samples ≠ [] →
      chunkFrames samples = [samples ++ List.replicate (frame_size - samples.length) 0] ∧
      (samples ++ List.replicate (frame_size - samples.length) 0).length = frame_size ∧
      processAudioChunk env s samples =
        processFrame env s (samples ++ List.replicate (frame_size - samples.length) 0)) := by
  have hsingle : ∀ (st : ASRState) (f : Frame),
      processFrames env st [f] = processFrame env st f := by
    intro st f
    rcases hp : processFrame env st f with ⟨e, s1, c⟩
    cases e <;> simp [processFrames, hp]
  constructor
  · intro hemp
    subst hemp
    unfold processAudioChunk
    rw [chunkFrames]
    simp [processFrames]
  · intro hne
    have h1 : chunkFrames samples =
        [samples ++ List.replicate (frame_size - samples.length) 0] := by
      rw [chunkFrames]
      simp [hne, Nat.le_of_lt hlt]
    refine ⟨h1, ?_, ?_⟩
    · simp only [List.length_append, List.length_replicate]
      omega
    · unfold processAudioChunk
      rw [h1, hsingle]

/-- C6: processing a chunk stops at the first frame that yields an event —
extending the frame list past an event-yielding prefix changes nothing — so a
`process_audio_chunk` call surfaces at most one event, namely the first of
the events its frames would produce if all were drained. -/
theorem c6_first_event_only :
    (∀ (env : Env) (s : ASRState) (fs1 fs2 : List Frame) (e : TranscriptionEvent)
       (s1 : ASRState) (c : List DecodeParams),
       processFrames env s fs1 = (some e, s1, c) →
       processFrames env s (fs1 ++ fs2) = (some e, s1, c)) ∧
    (∀ (env : Env) (s : ASRState) (samples : List Int),
       (processAudioChunk env s samples).1 =
         ((runFrames env s (chunkFrames samples)).1).head?) := by
  constructor
  · intro env s fs1
    induction fs1 generalizing s with
    | nil =>
      intro fs2 e s1 c h
      simp [processFrames] at h
    | cons f rest ih =>
      intro fs2 e s1 c h
      rcases hp : processFrame env s f with ⟨e0, st, c0⟩
      cases e0 with
      | some e0 =>
        simp only [processFrames, hp, List.cons_append] at h ⊢
        exact h
      | none =>
        rcases hr : processFrames env st rest with ⟨re, rs, rc⟩
        simp only [processFrames, hp, hr, List.cons_append, List.append_eq,
          Prod.mk.injEq] at h ⊢
        obtain ⟨h1, h2, h3⟩ := h
        rw [ih st fs2 e rs rc (by rw [hr, h1])]
        exact ⟨rfl, h2, h3⟩
  · intro env s samples
    have key : ∀ (fs : List Frame) (st : ASRState),
        (processFrames env st fs).1 = ((runFrames env st fs).1).head? := by
      intro fs
      induction fs with
      | nil => intro st; rfl
      | cons f rest ih =>
        intro st
        rcases hp : processFrame env st f with ⟨e0, s1, c0⟩
        cases e0 with
        | some e0 => simp [processFrames, runFrames, hp]
        | none =>
          simp only [processFrames, runFrames, hp, Option.toList_none, List.nil_append]
          exact ih s1
    exact key (chunkFrames samples) s

/-- C10: `process_audio` on `None` or a zero-length array returns
`{"text": "", "confidence": 0.0, "language": "bg"}`, with no backend call
and no engine-state mutation. -/
theorem c10_processAudio_empty (env : Env) (s : ASRState) (a : Option AudioArray)
    (h : a = none ∨ ∃ arr, a = some arr ∧ arr.len = 0) :
    processAudio env s a = (⟨"", 0, "bg"⟩, s, []) := by
  rcases h with rfl | ⟨arr, rfl, hlen⟩
  · rfl
  · simp [processAudio, hlen]

theorem c6_witness :
    processFrames envW0 sW6 ([[0]] ++ [[0]]) =
      (some ⟨"final", "", (mkRat 17 20)⟩, resetState sW6, [finalParams envW0]) :=
  c6_first_event_only.1 envW0 sW6 [[0]] [[0]] ⟨"final", "", (mkRat 17 20)⟩ (resetState sW6)
    [finalParams envW0] (by decide)

theorem c7_witness :
    ((processFrame envW0 initState [1]).2.1).speech_triggered = true ∧
    ((processFrame envW0 initState [1]).2.1).speech_frames ≠ [] :=
  ⟨by decide,
   c7_active_nonempty_buffer envW0 _ (Reachable.frame initState [1] Reachable.init)
     (by decide)⟩

theorem c8_witness :
    (processFrame envW0 initState [0]).1 = none :=
  (c8_interim_only_active envW0 initState Reachable.init [0]).1 rfl

theorem c9_witness :
    chunkFrames [5] = [[5] ++ List.replicate 319 0] ∧
    processAudioChunk envW0 initState [5] =
      processFrame envW0 initState ([5] ++ List.replicate 319 0) := by
  have h := (c9_short_chunk_padded envW0 initState [5] (by decide)).2 (by decide)
  exact ⟨h.1, h.2.2⟩

theorem c10_witness :
    processAudio envW0 initState (some (AudioArray.i16 [])) =
      (⟨"", 0, "bg"⟩, initState, []) :=
  c10_processAudio_empty envW0 initState (some (AudioArray.i16 []))
    (Or.inr ⟨AudioArray.i16 [], rfl, rfl⟩)

/-- The backend-call list of the partial path is empty (empty buffer or cache
hit) or exactly the one produced by its decode-with-retry body. -/
theorem getInterim_calls_cases (env : Env) (s : ASRState) :
    (getInterimTranscription env s).2.2 = [] ∨
    (getInterimTranscription env s).2.2 =
      (runDecode env (floatAudio (concatFrames s.speech_frames)) (interimParams env)
        env.beam_size_interim (mkRat 7 10) (mkRat 1 2)).2 := by
  by_cases hne : s.speech_frames = []
  · rw [getInterim_empty env s hne]
    exact Or.inl rfl
  · rcases hcl : cacheLookup s.cache (env.hashFn (concatFrames s.speech_frames)) with _ | e
    · rcases hd : runDecode env (floatAudio (concatFrames s.speech_frames))
          (interimParams env) env.beam_size_interim (mkRat 7 10) (mkRat 1 2) with ⟨r, calls⟩
      rcases r with _ | ⟨t, c⟩
      · rw [getInterim_err env s calls hne hcl hd]
        exact Or.inr rfl
      · rw [getInterim_decode env s t c calls hne hcl hd]
        exact Or.inr rfl
    · rw [getInterim_hit env s e hne hcl]
      exact Or.inl rfl

/-- The backend-call list of the final path is empty (empty buffer or cache
hit) or exactly the one produced by its decode-with-retry body. -/
theorem finalize_calls_cases (env : Env) (s : ASRState) :
    (finalizeTranscription env s).2.2 = [] ∨
    (finalizeTranscription env s).2.2 =
      (runDecode env (floatAudio (concatFrames s.speech_frames)) (finalParams env)
        (env.beam_size_final + 1) (mkRat 17 20) (mkRat 3 5)).2 := by
  by_cases hne : s.speech_frames = []
  · rw [finalize_empty env s hne]
    exact Or.inl rfl
  · rcases hcl : cacheLookup s.cache (env.hashFn (concatFrames s.speech_frames)) with _ | e
    · rcases hd : runDecode env (floatAudio (concatFrames s.speech_frames))
          (finalParams env) (env.beam_size_final + 1) (mkRat 17 20) (mkRat 3 5) with ⟨r, calls⟩
      rcases r with _ | ⟨t, c⟩
      · rw [finalize_err env s calls hne hcl hd]
        exact Or.inr rfl
      · rw [finalize_decode env s t c calls hne hcl hd]
        exact Or.inr rfl
    · rw [finalize_hit env s e hne hcl]
      exact Or.inl rfl

/-- C5: a backend exception on either decode path (first attempt or retry)
is caught and becomes an event of the same kind with empty text and
confidence 0.0; the partial path leaves the state untouched, and the final
path resets the per-utterance state to Idle (empty buffer, zero silence
count, cleared partial text), leaving the engine usable. -/
theorem c5_exception_handling (env : Env) (s : ASRState)
    (hne : s.speech_frames ≠ [])
    (hcl : cacheLookup s.cache (env.hashFn (concatFrames s.speech_frames)) = none) :
    (env.backend (floatAudio (concatFrames s.speech_frames)) (interimParams env) = .err →
      getInterimTranscription env s = (⟨"partial", "", 0⟩, s, [interimParams env])) ∧
    (∀ segs info,
      env.backend (floatAudio (concatFrames s.speech_frames)) (interimParams env)
        = .ok segs info →
      env.normalize (joinSegments segs) = "" → info.no_speech_prob > (mkRat 4 5) →
      env.backend (floatAudio (concatFrames s.speech_frames))
        { interimParams env with
          beam_size := env.beam_size_interim,
          temperature := (mkRat 1 5), no_speech_threshold := (mkRat 3 10) } = .err →
      getInterimTranscription env s =
        (⟨"partial", "", 0⟩, s,
         [interimParams env,
          { interimParams env with
            beam_size := env.beam_size_interim,
            temperature := (mkRat 1 5), no_speech_threshold := (mkRat 3 10) }])) ∧
    (env.backend (floatAudio (concatFrames s.speech_frames)) (finalParams env) = .err →
      finalizeTranscription env s =
        (⟨"final", "", 0⟩,
         { s with speech_frames := [], silence_count := 0, speech_triggered := false,
                  interim_text := "" }, [finalParams env])) ∧
    (∀ segs info,
      env.backend (floatAudio (concatFrames s.speech_frames)) (finalParams env)
        = .ok segs info →
      env.normalize (joinSegments segs) = "" → info.no_speech_prob > (mkRat 4 5) →
      env.backend (floatAudio (concatFrames s.speech_frames))
        { finalParams env with
          beam_size := env.beam_size_final + 1,
          temperature := (mkRat 1 5), no_speech_threshold := (mkRat 3 10) } = .err →
      finalizeTranscription env s =
        (⟨"final", "", 0⟩,
         { s with speech_frames := [], silence_count := 0, speech_triggered := false,
                  interim_text := "" },
         [finalParams env,
          { finalParams env with
            beam_size := env.beam_size_final + 1,
            temperature := (mkRat 1 5), no_speech_threshold := (mkRat 3 10) }])) := by
  refine ⟨?_, ?_, ?_, ?_⟩
  · intro hb
    rw [getInterim_err env s [interimParams env] hne hcl
      (runDecode_err1 env _ _ _ _ _ hb)]
  · intro segs info hb he hp hb2
    rw [getInterim_err env s _ hne hcl
      (runDecode_retry_err env _ _ _ _ _ segs info hb he hp hb2)]
  · intro hb
    rw [finalize_err env s [finalParams env] hne hcl
      (runDecode_err1 env _ _ _ _ _ hb)]
  · intro segs info hb he hp hb2
    rw [finalize_err env s _ hne hcl
      (runDecode_retry_err env _ _ _ _ _ segs info hb he hp hb2)]

theorem c5_witness :
    getInterimTranscription envErr sW6 =
      (⟨"partial", "", 0⟩, sW6, [interimParams envErr]) ∧
    finalizeTranscription envErr sW6 =
      (⟨"final", "", 0⟩,
       { sW6 with speech_frames := [], silence_count := 0, speech_triggered := false,
                  interim_text := "" }, [finalParams envErr]) :=
  ⟨(c5_exception_handling envErr sW6 (by decide) rfl).1 rfl,
   (c5_exception_handling envErr sW6 (by decide) rfl).2.2.1 rfl⟩

/-- C3: every decode (partial or final) issues at most two backend calls —
never more than one retry, whatever the retry returns — and when the first
attempt returns empty text with reported no-speech probability above 0.8,
exactly one retry is issued, with `no_speech_threshold = 0.3`,
`temperature = 0.2`, and `beam_size` unchanged on the partial path but
increased by 1 on the final path. -/
theorem c3_retry_policy :
    (∀ (env : Env) (s : ASRState),
      (getInterimTranscription env s).2.2.length ≤ 2 ∧
      (finalizeTranscription env s).2.2.length ≤ 2) ∧
    (∀ (env : Env) (s : ASRState) (segs : List Segment) (info : TranscribeInfo),
      s.speech_frames ≠ [] →
      cacheLookup s.cache (env.hashFn (concatFrames s.speech_frames)) = none →
      env.backend (floatAudio (concatFrames s.speech_frames)) (interimParams env)
        = .ok segs info →
      env.normalize (joinSegments segs) = "" → info.no_speech_prob > (mkRat 4 5) →
      (getInterimTranscription env s).2.2 =
        [interimParams env,
         { interimParams env with
           beam_size := env.beam_size_interim,
           temperature := (mkRat 1 5), no_speech_threshold := (mkRat 3 10) }]) ∧
    (∀ (env : Env) (s : ASRState) (segs : List Segment) (info : TranscribeInfo),
      s.speech_frames ≠ [] →
      cacheLookup s.cache (env.hashFn (concatFrames s.speech_frames)) = none →
      env.backend (floatAudio (concatFrames s.speech_frames)) (finalParams env)
        = .ok segs info →
      env.normalize (joinSegments segs) = "" → info.no_speech_prob > (mkRat 4 5) →
      (finalizeTranscription env s).2.2 =
        [finalParams env,
         { finalParams env with
           beam_size := env.beam_size_final + 1,
           temperature := (mkRat 1 5), no_speech_threshold := (mkRat 3 10) }]) := by
  refine ⟨?_, ?_, ?_⟩
  · intro env s
    constructor
    · rcases getInterim_calls_cases env s with h | h <;> rw [h]
      · decide
      · exact runDecode_calls_le_two env _ _ _ _ _
    · rcases finalize_calls_cases env s with h | h <;> rw [h]
      · decide
      · exact runDecode_calls_le_two env _ _ _ _ _
  · intro env s segs info hne hcl hb he hp
    rcases hb2 : env.backend (floatAudio (concatFrames s.speech_frames))
        { interimParams env with
          beam_size := env.beam_size_interim,
          temperature := (mkRat 1 5), no_speech_threshold := (mkRat 3 10) }
        with ⟨segs2, info2⟩ | _
    · rw [getInterim_decode env s _ _ _ hne hcl
        (runDecode_retry_ok env _ _ _ _ _ segs segs2 info info2 hb he hp hb2)]
    · rw [getInterim_err env s _ hne hcl
        (runDecode_retry_err env _ _ _ _ _ segs info hb he hp hb2)]
  · intro env s segs info hne hcl hb he hp
    rcases hb2 : env.backend (floatAudio (concatFrames s.speech_frames))
        { finalParams env with
          beam_size := env.beam_size_final + 1,
          temperature := (mkRat 1 5), no_speech_threshold := (mkRat 3 10) }
        with ⟨segs2, info2⟩ | _
    · rw [finalize_decode env s _ _ _ hne hcl
        (runDecode_retry_ok env _ _ _ _ _ segs segs2 info info2 hb he hp hb2)]
    · rw [finalize_err env s _ hne hcl
        (runDecode_retry_err env _ _ _ _ _ segs info hb he hp hb2)]

theorem c3_witness :
    (getInterimTranscription envRetry sW6).2.2 =
      [interimParams envRetry,
       { interimParams envRetry with
         beam_size := envRetry.beam_size_interim,
         temperature := (mkRat 1 5), no_speech_threshold := (mkRat 3 10) }] :=
  c3_retry_policy.2.1 envRetry sW6 [] ⟨(mkRat 9 10)⟩ (by decide) rfl (by decide) rfl
    (by decide)

/-- Each per-segment confidence lies in [0,1]. -/
theorem segConfidence_unit (sg : Segment) :
    0 ≤ segConfidence sg ∧ segConfidence sg ≤ 1 := by
  unfold segConfidence
  exact ⟨le_min (by norm_num) (le_max_left 0 _), min_le_left 1 _⟩

/-- A list of rationals in [0,1] has sum between 0 and its length. -/
theorem sum_unit_bounds (l : List ℚ) (h : ∀ x ∈ l, 0 ≤ x ∧ x ≤ 1) :
    0 ≤ l.sum ∧ l.sum ≤ (l.length : ℚ) := by
  induction l with
  | nil => simp
  | cons a t ih =>
    have ha := h a (List.mem_cons_self a t)
    have ht := ih fun x hx => h x (List.mem_cons_of_mem a hx)
    simp only [List.sum_cons, List.length_cons]
    push_cast
    constructor <;> linarith [ha.1, ha.2, ht.1, ht.2]

/-- `avgConfidence` is the no-segment default on an empty segment list, the
arithmetic mean of the per-segment confidences otherwise, and lies in [0,1]
whenever the default does. -/
theorem avgConfidence_spec (segs : List Segment) (d : ℚ) (h0 : 0 ≤ d) (h1 : d ≤ 1) :
    (segs = [] → avgConfidence segs d = d) ∧
    (segs ≠ [] → avgConfidence segs d =
      (segs.map segConfidence).sum / ((segs.map segConfidence).length : ℚ)) ∧
    0 ≤ avgConfidence segs d ∧ avgConfidence segs d ≤ 1 := by
  rcases segs with _ | ⟨sg, rest⟩
  · refine ⟨fun _ => rfl, fun hne => absurd rfl hne, ?_, ?_⟩ <;>
      simpa [avgConfidence] using (by assumption : _)
  · have hmem : ∀ x ∈ (sg :: rest).map segConfidence, 0 ≤ x ∧ x ≤ 1 := by
      intro x hx
      obtain ⟨y, -, rfl⟩ := List.mem_map.mp hx
      exact segConfidence_unit y
    have hb := sum_unit_bounds ((sg :: rest).map segConfidence) hmem
    have hlenpos : (0 : ℚ) < (((sg :: rest).map segConfidence).length : ℚ) := by
      have : 0 < ((sg :: rest).map segConfidence).length := by simp
      exact_mod_cast this
    have heq : avgConfidence (sg :: rest) d =
        ((sg :: rest).map segConfidence).sum /
          (((sg :: rest).map segConfidence).length : ℚ) := by
      unfold avgConfidence
      simp
    refine ⟨fun h => absurd h (by simp), fun _ => heq, ?_, ?_⟩
    · rw [heq]
      exact div_nonneg hb.1 (le_of_lt hlenpos)
    · rw [heq, div_le_one hlenpos]
      exact hb.2

/-- C4 (amended): per-segment confidence is `clamp((avg_logprob + 1)/1, 0, 1)`
(1 at `avg_logprob = 0`, 0 at `avg_logprob = -10`); the overall confidence is
the arithmetic mean of the per-segment confidences and always lies in [0,1];
and a decode yielding no segments defaults to 0.7 (partial) / 0.85 (final) on
the first attempt, but to 0.5 (partial) / 0.6 (final) when it is the
no-speech retry attempt that yields no segments. -/
theorem c4_confidence_amended :
    (∀ t : String, segConfidence ⟨t, 0⟩ = 1 ∧ segConfidence ⟨t, -10⟩ = 0) ∧
    (∀ (segs : List Segment) (d : ℚ), 0 ≤ d → d ≤ 1 →
      (segs = [] → avgConfidence segs d = d) ∧
      (segs ≠ [] → avgConfidence segs d =
        (segs.map segConfidence).sum / ((segs.map segConfidence).length : ℚ)) ∧
      0 ≤ avgConfidence segs d ∧ avgConfidence segs d ≤ 1) ∧
    (∀ (env : Env) (s : ASRState) (segs : List Segment) (info : TranscribeInfo),
      s.speech_frames ≠ [] →
      cacheLookup s.cache (env.hashFn (concatFrames s.speech_frames)) = none →
      env.backend (floatAudio (concatFrames s.speech_frames)) (interimParams env)
        = .ok segs info →
      ¬(env.normalize (joinSegments segs) = "" ∧ info.no_speech_prob > (mkRat 4 5)) →
      (getInterimTranscription env s).1.confidence = avgConfidence segs (mkRat 7 10)) ∧
    (∀ (env : Env) (s : ASRState) (segs : List Segment) (info : TranscribeInfo),
      s.speech_frames ≠ [] →
      cacheLookup s.cache (env.hashFn (concatFrames s.speech_frames)) = none →
      env.backend (floatAudio (concatFrames s.speech_frames)) (finalParams env)
        = .ok segs info →
      ¬(env.normalize (joinSegments segs) = "" ∧ info.no_speech_prob > (mkRat 4 5)) →
      (finalizeTranscription env s).1.confidence = avgConfidence segs (mkRat 17 20)) ∧
    (∀ (env : Env) (s : ASRState) (segs segs2 : List Segment)
       (info info2 : TranscribeInfo),
      s.speech_frames ≠ [] →
      cacheLookup s.cache (env.hashFn (concatFrames s.speech_frames)) = none →
      env.backend (floatAudio (concatFrames s.speech_frames)) (interimParams env)
        = .ok segs info →
      env.normalize (joinSegments segs) = "" → info.no_speech_prob > (mkRat 4 5) →
      env.backend (floatAudio (concatFrames s.speech_frames))
        { interimParams env with
          beam_size := env.beam_size_interim,
          temperature := (mkRat 1 5), no_speech_threshold := (mkRat 3 10) }
        = .ok segs2 info2 →
      (getInterimTranscription env s).1.confidence = avgConfidence segs2 (mkRat 1 2)) ∧
    (∀ (env : Env) (s : ASRState) (segs segs2 : List Segment)
       (info info2 : TranscribeInfo),
      s.speech_frames ≠ [] →
      cacheLookup s.cache (env.hashFn (concatFrames s.speech_frames)) = none →
      env.backend (floatAudio (concatFrames s.speech_frames)) (finalParams env)
        = .ok segs info →
      env.normalize (joinSegments segs) = "" → info.no_speech_prob > (mkRat 4 5) →
      env.backend (floatAudio (concatFrames s.speech_frames))
        { finalParams env with
          beam_size := env.beam_size_final + 1,
          temperature := (mkRat 1 5), no_speech_threshold := (mkRat 3 10) }
        = .ok segs2 info2 →
      (finalizeTranscription env s).1.confidence = avgConfidence segs2 (mkRat 3 5)) := by
  refine ⟨?_, ?_, ?_, ?_, ?_, ?_⟩
  · intro t
    constructor <;> simp [segConfidence]
  · intro segs d h0 h1
    exact avgConfidence_spec segs d h0 h1
  · intro env s segs info hne hcl hb hnr
    rw [getInterim_decode env s _ _ _ hne hcl
      (runDecode_ok_noretry env _ _ _ _ _ segs info hb hnr)]
  · intro env s segs info hne hcl hb hnr
    rw [finalize_decode env s _ _ _ hne hcl
      (runDecode_ok_noretry env _ _ _ _ _ segs info hb hnr)]
  · intro env s segs segs2 info info2 hne hcl hb he hp hb2
    rw [getInterim_decode env s _ _ _ hne hcl
      (runDecode_retry_ok env _ _ _ _ _ segs segs2 info info2 hb he hp hb2)]
  · intro env s segs segs2 info info2 hne hcl hb he hp hb2
    rw [finalize_decode env s _ _ _ hne hcl
      (runDecode_retry_ok env _ _ _ _ _ segs segs2 info info2 hb he hp hb2)]

/-- The original C4 is false on the retry path: with a backend reporting
no-speech probability 0.9 and no segments on both attempts, the emitted
partial event has confidence 0.5, not the claimed no-segment default 0.7. -/
theorem c4_counterexample :
    (getInterimTranscription envRetry sW6).1.confidence = (mkRat 1 2) ∧
    ¬(getInterimTranscription envRetry sW6).1.confidence = (mkRat 7 10) := by
  decide

theorem c4_witness :
    (getInterimTranscription envW0 sW6).1.confidence = avgConfidence [] (mkRat 7 10) :=
  c4_confidence_amended.2.2.1 envW0 sW6 [] ⟨0⟩ (by decide) rfl rfl (by decide)

/-- Looking up a key just appended to a cache that did not contain it finds
the appended entry. -/
theorem cacheLookup_append_self (l : List (String × CacheEntry)) (key : String)
    (v : CacheEntry) (h : cacheLookup l key = none) :
    cacheLookup (l ++ [(key, v)]) key = some v := by
  induction l with
  | nil => simp [cacheLookup]
  | cons kv rest ih =>
    rcases kv with ⟨k, w⟩
    by_cases hk : k = key
    · simp [cacheLookup, hk] at h
    · simp only [List.cons_append, cacheLookup, if_neg hk] at h ⊢
      exact ih h

/-- C2 (amended): a cache hit short-circuits the backend on both decode
paths and returns the cached text and confidence; and after a first partial
pass over fresh speech bytes (cache miss, capacity available) that produced
non-empty text, a second pass over the identical bytes — partial or final,
one shared keyspace — returns the same text and confidence with no backend
call. -/
theorem c2_cache_amended :
    (∀ (env : Env) (s : ASRState) (e : CacheEntry), s.speech_frames ≠ [] →
      cacheLookup s.cache (env.hashFn (concatFrames s.speech_frames)) = some e →
      getInterimTranscription env s =
        (⟨"partial", (e.pair (mkRat 7 10)).1, (e.pair (mkRat 7 10)).2⟩,
         { s with interim_text := (e.pair (mkRat 7 10)).1 }, []) ∧
      finalizeTranscription env s =
        (⟨"final", (e.pair (mkRat 17 20)).1, (e.pair (mkRat 17 20)).2⟩,
         { s with speech_frames := [], silence_count := 0, speech_triggered := false,
                  interim_text := "" }, [])) ∧
    (∀ (env : Env) (s : ASRState), s.speech_frames ≠ [] →
      cacheLookup s.cache (env.hashFn (concatFrames s.speech_frames)) = none →
      (getInterimTranscription env s).1.text ≠ "" →
      s.cache.length < cache_max_size →
      ((getInterimTranscription env ((getInterimTranscription env s).2.1)).1.text
          = (getInterimTranscription env s).1.text ∧
       (getInterimTranscription env ((getInterimTranscription env s).2.1)).1.confidence
          = (getInterimTranscription env s).1.confidence ∧
       (getInterimTranscription env ((getInterimTranscription env s).2.1)).2.2 = []) ∧
      ((finalizeTranscription env ((getInterimTranscription env s).2.1)).1.text
          = (getInterimTranscription env s).1.text ∧
       (finalizeTranscription env ((getInterimTranscription env s).2.1)).1.confidence
          = (getInterimTranscription env s).1.confidence ∧
       (finalizeTranscription env ((getInterimTranscription env s).2.1)).2.2 = [])) := by
  constructor
  · intro env s e hne hcl
    exact ⟨getInterim_hit env s e hne hcl, finalize_hit env s e hne hcl⟩
  · intro env s hne hcl htext hcap
    rcases hd : runDecode env (floatAudio (concatFrames s.speech_frames))
        (interimParams env) env.beam_size_interim (mkRat 7 10) (mkRat 1 2) with ⟨r, calls⟩
    rcases r with _ | ⟨t, c⟩
    · rw [getInterim_err env s calls hne hcl hd] at htext
      exact absurd rfl htext
    · have h1 := getInterim_decode env s t c calls hne hcl hd
      have ht : t ≠ "" := by
        rw [h1] at htext
        exact htext
      have hif : (if t ≠ "" ∧ s.cache.length < cache_max_size then
          s.cache ++ [(env.hashFn (concatFrames s.speech_frames), CacheEntry.entry t c)]
          else s.cache)
          = s.cache ++ [(env.hashFn (concatFrames s.speech_frames),
              CacheEntry.entry t c)] := if_pos ⟨ht, hcap⟩
      rw [hif] at h1
      rw [h1]
      have hne1 : ({ s with
          cache := s.cache ++ [(env.hashFn (concatFrames s.speech_frames),
            CacheEntry.entry t c)],
          interim_text := t } : ASRState).speech_frames ≠ [] := hne
      have hlu : cacheLookup
          ({ s with
            cache := s.cache ++ [(env.hashFn (concatFrames s.speech_frames),
              CacheEntry.entry t c)],
            interim_text := t } : ASRState).cache
          (env.hashFn (concatFrames ({ s with
            cache := s.cache ++ [(env.hashFn (concatFrames s.speech_frames),
              CacheEntry.entry t c)],
            interim_text := t } : ASRState).speech_frames))
          = some (CacheEntry.entry t c) :=
        cacheLookup_append_self s.cache _ _ hcl
      rw [getInterim_hit env _ _ hne1 hlu, finalize_hit env _ _ hne1 hlu]
      exact ⟨⟨rfl, rfl, rfl⟩, rfl, rfl, rfl⟩

/-- The original C2 is false in its second-pass clause: when the first decode
returns empty text (which the engine does not cache), feeding identical
speech bytes again issues a second backend call even though the cache is
under capacity. -/
theorem c2_counterexample :
    sW6.cache.length < cache_max_size ∧
    (getInterimTranscription envW0 sW6).1.text = "" ∧
    (getInterimTranscription envW0 ((getInterimTranscription envW0 sW6).2.1)).2.2
      = [interimParams envW0] := by
  decide

theorem c2_witness :
    (getInterimTranscription envTxt ((getInterimTranscription envTxt sW6).2.1)).1.text
        = (getInterimTranscription envTxt sW6).1.text ∧
    (getInterimTranscription envTxt ((getInterimTranscription envTxt sW6).2.1)).2.2
        = [] ∧
    (finalizeTranscription envTxt ((getInterimTranscription envTxt sW6).2.1)).2.2
        = [] :=
  ⟨(c2_cache_amended.2 envTxt sW6 (by decide) rfl (by decide) (by decide)).1.1,
   (c2_cache_amended.2 envTxt sW6 (by decide) rfl (by decide) (by decide)).1.2.2,
   (c2_cache_amended.2 envTxt sW6 (by decide) rfl (by decide) (by decide)).2.2.2⟩

/-- `runFrames` splits over list append. -/
theorem runFrames_append (env : Env) (fs1 fs2 : List Frame) : ∀ (s : ASRState),
    runFrames env s (fs1 ++ fs2)
      = ((runFrames env s fs1).1 ++ (runFrames env (runFrames env s fs1).2 fs2).1,
         (runFrames env (runFrames env s fs1).2 fs2).2) := by
  induction fs1 with
  | nil => intro s; simp [runFrames]
  | cons f rest ih =>
    intro s
    simp only [List.cons_append, List.append_eq, runFrames]
    rw [ih (processFrame env s f).2.1]
    simp [List.append_assoc]

/-- Feeding `n` speech-classified frames appends them all to the buffer,
zeroes the silence counter, raises `speech_triggered` (for n ≥ 1), and emits
only "partial" events. -/
theorem runFrames_speech (env : Env) (sf : Frame) (hv : env.vad sf = true) :
    ∀ (n : Nat) (s : ASRState),
      (runFrames env s (List.replicate n sf)).2.speech_frames
          = s.speech_frames ++ List.replicate n sf ∧
      (runFrames env s (List.replicate n sf)).2.silence_count
          = (if n = 0 then s.silence_count else 0) ∧
      (runFrames env s (List.replicate n sf)).2.speech_triggered
          = (if n = 0 then s.speech_triggered else true) ∧
      ∀ e ∈ (runFrames env s (List.replicate n sf)).1, e.type = "partial" := by
  intro n
  induction n with
  | zero => intro s; simp [runFrames]
  | succ n ih =>
    intro s
    rw [List.replicate_succ]
    by_cases hm : (s.speech_frames.length + 1) % 25 = 0
    · have hpf := processFrame_speech_part env s sf hv hm
      have hcf := getInterim_core_fields env
        { s with speech_frames := s.speech_frames ++ [sf], silence_count := 0,
                 speech_triggered := true }
      have het := (event_types env
        { s with speech_frames := s.speech_frames ++ [sf], silence_count := 0,
                 speech_triggered := true }).2
      have ihs := ih (getInterimTranscription env
        { s with speech_frames := s.speech_frames ++ [sf], silence_count := 0,
                 speech_triggered := true }).2.1
      simp only [runFrames, hpf]
      refine ⟨?_, ?_, ?_, ?_⟩
      · rw [ihs.1, hcf.1]
        simp
      · rw [ihs.2.1, hcf.2.1]
        simp
      · rw [ihs.2.2.1, hcf.2.2]
        simp
      · intro e he
        simp only [Option.toList_some, List.singleton_append, List.mem_cons] at he
        rcases he with rfl | he
        · exact het
        · exact ihs.2.2.2 e he
    · have hpf := processFrame_speech_noPart env s sf hv hm
      have ihs := ih { s with
        speech_frames := s.speech_frames ++ [sf],
        silence_count := 0, speech_triggered := true }
      simp only [runFrames, hpf]
      refine ⟨?_, ?_, ?_, ?_⟩
      · rw [ihs.1]
        simp
      · rw [ihs.2.1]
        simp
      · rw [ihs.2.2.1]
        simp
      · intro e he
        simp only [Option.toList_none, List.nil_append] at he
        exact ihs.2.2.2 e he

/-- While Active, silence frames short of the threshold emit nothing and only
bump the counter. -/
theorem runFrames_silence_wait (env : Env) (zf : Frame) (hv : env.vad zf = false) :
    ∀ (k : Nat) (s : ASRState), s.speech_triggered = true →
      s.silence_count + k < env.max_silence_frames →
      runFrames env s (List.replicate k zf)
        = ([], { s with silence_count := s.silence_count + k }) := by
  intro k
  induction k with
  | zero =>
    intro s ht hc
    obtain ⟨a, b, c, d, e⟩ := s
    simp [runFrames]
  | succ k ih =>
    intro s ht hc
    rw [List.replicate_succ]
    have hpf := processFrame_silence_wait env s zf hv ht (by omega)
    simp only [runFrames, hpf]
    rw [ih { s with silence_count := s.silence_count + 1 } ht
      (by simp only []; omega)]
    simp only [Option.toList_none, List.nil_append]
    have harith : s.silence_count + 1 + k = s.silence_count + (k + 1) := by omega
    simp [harith]

/-- From an Active state with a zeroed silence counter and a 12-frame silence
threshold: 11 silence frames emit nothing; the 12th finalizes, emitting one
"final" event. -/
theorem silence_tail_run (env : Env) (zf : Frame) (hv : env.vad zf = false)
    (s : ASRState) (ht : s.speech_triggered = true) (hs0 : s.silence_count = 0)
    (hmax : env.max_silence_frames = 12) :
    runFrames env s (List.replicate 11 zf) = ([], { s with silence_count := 11 }) ∧
    ∃ ev, ev.type = "final" ∧
      runFrames env s (List.replicate 12 zf)
        = ([ev], (finalizeTranscription env { s with silence_count := 12 }).2.1) := by
  have h11 : runFrames env s (List.replicate 11 zf)
      = ([], { s with silence_count := 11 }) := by
    have hw := runFrames_silence_wait env zf hv 11 s ht (by omega)
    rw [hs0] at hw
    simpa using hw
  refine ⟨h11, ?_⟩
  have hstep : processFrame env { s with silence_count := 11 } zf
      = (some (finalizeTranscription env { s with silence_count := 12 }).1,
         (finalizeTranscription env { s with silence_count := 12 }).2.1,
         (finalizeTranscription env { s with silence_count := 12 }).2.2) :=
    processFrame_silence_final env { s with silence_count := 11 } zf hv ht
      (by rw [hmax])
  have hsingle : runFrames env { s with silence_count := 11 } [zf]
      = ([(finalizeTranscription env { s with silence_count := 12 }).1],
         (finalizeTranscription env { s with silence_count := 12 }).2.1) := by
    simp [runFrames, hstep]
  refine ⟨(finalizeTranscription env { s with silence_count := 12 }).1,
          (event_types env { s with silence_count := 12 }).1, ?_⟩
  have hrep : List.replicate 12 zf = List.replicate 11 zf ++ [zf] := by
    simp [List.replicate_succ (n := 11)]
  rw [hrep, runFrames_append env (List.replicate 11 zf) [zf] s, h11, hsingle]
  simp

/-- C1 (amended): with `vad_tail_ms = 250` and 20 ms frames the source
computes `max_silence_frames = int(250 / 20) = 12` (truncating division), so
for n ≥ 1 speech frames followed by consecutive silence frames, the speech
phase and the first 11 silence frames emit only "partial" events, exactly one
Final event is emitted — when the 12th consecutive silence frame is processed
— and the engine is then Idle with an empty speech buffer and zeroed silence
counter. -/
theorem c1_final_on_twelfth (env : Env) (sf zf : Frame) (n : Nat)
    (hv1 : env.vad sf = true) (hv0 : env.vad zf = false)
    (htail : env.vad_tail_ms = 250) (hn : 1 ≤ n) :
    (∀ e ∈ (runFrames env initState
        (List.replicate n sf ++ List.replicate 11 zf)).1, e.type = "partial") ∧
    (∃ ev, ev.type = "final" ∧
      (runFrames env initState
          (List.replicate n sf ++ List.replicate 12 zf)).1
        = (runFrames env initState
            (List.replicate n sf ++ List.replicate 11 zf)).1 ++ [ev]) ∧
    (runFrames env initState
        (List.replicate n sf ++ List.replicate 12 zf)).2.speech_frames = [] ∧
    (runFrames env initState
        (List.replicate n sf ++ List.replicate 12 zf)).2.silence_count = 0 ∧
    (runFrames env initState
        (List.replicate n sf ++ List.replicate 12 zf)).2.speech_triggered = false := by
  have hmax : env.max_silence_frames = 12 := by
    unfold Env.max_silence_frames frame_duration
    rw [htail]
  have hsp := runFrames_speech env sf hv1 n initState
  have hAframes : (runFrames env initState (List.replicate n sf)).2.speech_frames
      = List.replicate n sf := by
    rw [hsp.1]
    simp [initState]
  have hAsil : (runFrames env initState (List.replicate n sf)).2.silence_count = 0 := by
    rw [hsp.2.1]
    simp [initState]
  have hAtrig : (runFrames env initState (List.replicate n sf)).2.speech_triggered
      = true := by
    rw [hsp.2.2.1, if_neg (by omega)]
  have htail11 := silence_tail_run env zf hv0
    (runFrames env initState (List.replicate n sf)).2 hAtrig hAsil hmax
  obtain ⟨h11, ev, hevt, h12⟩ := htail11
  have happ11 := runFrames_append env (List.replicate n sf) (List.replicate 11 zf)
    initState
  have happ12 := runFrames_append env (List.replicate n sf) (List.replicate 12 zf)
    initState
  have hAfne : ({ (runFrames env initState (List.replicate n sf)).2 with
      silence_count := 12 } : ASRState).speech_frames ≠ [] := by
    have : (List.replicate n sf).length = n := List.length_replicate n sf
    simp only [hAframes]
    intro hcontra
    rw [hcontra] at this
    simp at this
    omega
  have hreset := finalize_resets env
    ({ (runFrames env initState (List.replicate n sf)).2 with silence_count := 12 })
    hAfne
  refine ⟨?_, ⟨ev, hevt, ?_⟩, ?_, ?_, ?_⟩
  · intro e he
    rw [happ11, h11] at he
    simp only [List.append_nil] at he
    exact hsp.2.2.2 e he
  · rw [happ11, happ12, h11, h12]
    simp
  · rw [happ12, h12]
    exact hreset.1
  · rw [happ12, h12]
    exact hreset.2.1
  · rw [happ12, h12]
    exact hreset.2.2.1

/-- The original C1 is false: with `vad_tail_ms = 250` a Final event is
already emitted while only 12 consecutive silence frames have been processed
(the truncating division yields `max_silence_frames = 12`), not on the 13th. -/
theorem c1_counterexample :
    envW1.vad_tail_ms = 250 ∧
    ((runFrames envW1 initState
        (List.replicate 1 [1] ++ List.replicate 12 [0])).1.countP
      (fun e => e.type == "final")) = 1 := by
  decide

theorem c1_witness :
    (runFrames envW1 initState
        (List.replicate 1 [1] ++ List.replicate 12 [0])).2.speech_triggered = false :=
  (c1_final_on_twelfth envW1 [1] [0] 1 (by decide) (by decide) rfl (by decide)).2.2.2.2

end ASR
